import Mathlib

/-!
Shallow embedding of the twirp-rs dispatch/transport core test surface:
the hand-written test service (`crates/twirp/src/test.rs`) and the example
Haberdasher service (`example/src/main.rs`), together with models of the
error envelope, the wire codecs (serde_json structured mode, prost binary
mode), the client URL builder and the dispatcher, which live in the twirp
core crate (not present under `src/`) or in external crates and are
therefore modelled from the specification.
-/

namespace Twirp

/-- Modelled from the spec: the closed `ErrorKind`/`TwirpErrorCode`
enumeration of the twirp core crate (its `error.rs` is not under `src/`).
The spec (§3, §6) fixes the closed set and the HTTP status mapping. -/
inductive TwirpErrorCode where
  | Canceled
  | Unknown
  | InvalidArgument
  | MalformedQuery
  | NotFound
  | BadRoute
  | AlreadyExists
  | PermissionDenied
  | Unauthenticated
  | ResourceExhausted
  | FailedPrecondition
  | Aborted
  | OutOfRange
  | Unimplemented
  | Internal
  | Unavailable
  | DataLoss
  deriving DecidableEq, Repr

/-- Modelled from the spec: the fixed one-to-one `ErrorKind → HTTP status`
mapping (§6 Status codes; the core crate's `error.rs` is not under `src/`). -/
def TwirpErrorCode.httpStatus : TwirpErrorCode → Nat
  | .Canceled => 408
  | .Unknown => 500
  | .InvalidArgument => 400
  | .MalformedQuery => 400
  | .NotFound => 404
  | .BadRoute => 404
  | .AlreadyExists => 409
  | .PermissionDenied => 403
  | .Unauthenticated => 401
  | .ResourceExhausted => 429
  | .FailedPrecondition => 412
  | .Aborted => 409
  | .OutOfRange => 400
  | .Unimplemented => 404
  | .Internal => 500
  | .Unavailable => 503
  | .DataLoss => 500

/-- Modelled from the spec: the canonical wire name of each error code
(§6 Error wire body: `"code": "<error_name>"`). -/
def TwirpErrorCode.wireName : TwirpErrorCode → String
  | .Canceled => "canceled"
  | .Unknown => "unknown"
  | .InvalidArgument => "invalid_argument"
  | .MalformedQuery => "malformed"
  | .NotFound => "not_found"
  | .BadRoute => "bad_route"
  | .AlreadyExists => "already_exists"
  | .PermissionDenied => "permission_denied"
  | .Unauthenticated => "unauthenticated"
  | .ResourceExhausted => "resource_exhausted"
  | .FailedPrecondition => "failed_precondition"
  | .Aborted => "aborted"
  | .OutOfRange => "out_of_range"
  | .Unimplemented => "unimplemented"
  | .Internal => "internal"
  | .Unavailable => "unavailable"
  | .DataLoss => "data_loss"

/-- Modelled from the spec: the serializable error envelope
`{ code, msg, meta }` (§3 ErrorEnvelope; the core crate's `error.rs` is not
under `src/`). `meta` is a string-to-string mapping, insertion order
irrelevant, modelled as an association list. -/
structure TwirpErrorResponse where
  code : TwirpErrorCode
  msg : String
  meta : List (String × String) := []
  deriving DecidableEq, Repr

/-- Modelled from the spec: the per-kind envelope constructor fixing
`code := Internal` (§4.1: "constructors, one per ErrorKind, each fixing
`code` and accepting a caller-supplied `message`"). -/
def internal (msg : String) : TwirpErrorResponse :=
  { code := .Internal, msg := msg }

/-- Modelled from the spec: the per-kind envelope constructor fixing
`code := InvalidArgument` (§4.1). -/
def invalid_argument (msg : String) : TwirpErrorResponse :=
  { code := .InvalidArgument, msg := msg }

/-- `PingRequest` from `crates/twirp/src/test.rs` (a prost message with one
`string` field `name`, tag 2, also serde-serializable with
`#[serde(default)]`). -/
structure PingRequest where
  name : String
  deriving DecidableEq, Repr

/-- `PingResponse` from `crates/twirp/src/test.rs` (same shape as
`PingRequest`: one `string` field `name`, tag 2). -/
structure PingResponse where
  name : String
  deriving DecidableEq, Repr

/-- `TestAPIServer::ping` from `crates/twirp/src/test.rs`:
`Ok(PingResponse { name: req.name })`. -/
def TestAPIServer.ping (req : PingRequest) : Except TwirpErrorResponse PingResponse :=
  .ok { name := req.name }

/-- `TestAPIServer::boom` from `crates/twirp/src/test.rs`:
`Err(internal("boom!"))`. -/
def TestAPIServer.boom (_req : PingRequest) : Except TwirpErrorResponse PingResponse :=
  .error (internal "boom!")

/-- Modelled from the spec: `prost_wkt_types::Timestamp` (the generated
proto types of the example are produced into `OUT_DIR` and are not under
`src/`): seconds/nanos pair. -/
structure Timestamp where
  seconds : Int
  nanos : Int
  deriving DecidableEq, Repr

/-- Modelled from the spec: `MakeHatRequest` of the Haberdasher example
(generated proto code not under `src/`); its single field `inches` as used
by `example/src/main.rs` (`req.inches == 0`, `size: req.inches`). -/
structure MakeHatRequest where
  inches : Nat
  deriving DecidableEq, Repr

/-- Modelled from the spec: `MakeHatResponse` of the Haberdasher example
(generated proto code not under `src/`), with the fields assigned in
`example/src/main.rs`. -/
structure MakeHatResponse where
  color : String
  name : String
  size : Nat
  timestamp : Option Timestamp
  deriving DecidableEq, Repr

/-- `HaberdasherAPIServer::make_hat` from `example/src/main.rs`. The wall
clock read (`SystemTime::now().duration_since(UNIX_EPOCH)`, whole seconds)
is passed in as the explicit parameter `now`; `unwrap_or_default()` makes
that read total in the source, so the embedding takes any `Nat`. -/
def HaberdasherAPIServer.make_hat (now : Nat) (req : MakeHatRequest) :
    Except TwirpErrorResponse MakeHatResponse :=
  if req.inches = 0 then
    .error (invalid_argument "inches")
  else
    .ok { color := "black", name := "top hat", size := req.inches,
          timestamp := some { seconds := (now : Int), nanos := 0 } }

/-! ## UTF-8 byte model

Rust strings are UTF-8 byte sequences; both `String::from_utf8` (used by
`read_string_body`) and the prost/serde codecs move between byte bodies
and strings. Bytes are modelled as `Nat`s below 256. -/

/-- Model of the UTF-8 encoding of one Unicode scalar value (how a Rust
`String` stores its characters). -/
def utf8EncodeChar (c : Char) : List Nat :=
  if c.toNat < 128 then [c.toNat]
  else if c.toNat < 2048 then [192 + c.toNat / 64, 128 + c.toNat % 64]
  else if c.toNat < 65536 then
    [224 + c.toNat / 4096, 128 + c.toNat / 64 % 64, 128 + c.toNat % 64]
  else
    [240 + c.toNat / 262144, 128 + c.toNat / 4096 % 64, 128 + c.toNat / 64 % 64,
      128 + c.toNat % 64]

/-- The UTF-8 bytes of a string. -/
def utf8Encode (s : String) : List Nat :=
  s.data.flatMap utf8EncodeChar

/-- Pop the first byte of a buffer, if any. -/
def take1 : List Nat → Option (Nat × List Nat)
  | [] => none
  | b :: r => some (b, r)

/-- Scalar value of a two-byte UTF-8 sequence, validating the lead range
(`0xC2..0xDF`, which rules out overlong forms) and the continuation byte. -/
def utf8Scalar2 (b b1 : Nat) : Option Nat :=
  if 194 ≤ b ∧ 128 ≤ b1 ∧ b1 < 192 then some ((b - 192) * 64 + (b1 - 128)) else none

/-- Scalar value of a three-byte UTF-8 sequence, rejecting overlong forms
(lead `0xE0` needs a first continuation of at least `0xA0`) and surrogates
(lead `0xED` needs a first continuation below `0xA0`). -/
def utf8Scalar3 (b b1 b2 : Nat) : Option Nat :=
  if (224 < b ∨ 160 ≤ b1) ∧ (b ≠ 237 ∨ b1 < 160) ∧
      128 ≤ b1 ∧ b1 < 192 ∧ 128 ≤ b2 ∧ b2 < 192 then
    some ((b - 224) * 4096 + (b1 - 128) * 64 + (b2 - 128))
  else none

/-- Scalar value of a four-byte UTF-8 sequence, rejecting overlong forms
(lead `0xF0` needs a first continuation of at least `0x90`), values above
`0x10FFFF` (lead at most `0xF4`, and `0xF4` needs a first continuation
below `0x90`). -/
def utf8Scalar4 (b b1 b2 b3 : Nat) : Option Nat :=
  if b < 245 ∧ (240 < b ∨ 144 ≤ b1) ∧ (b ≠ 244 ∨ b1 < 144) ∧
      128 ≤ b1 ∧ b1 < 192 ∧ 128 ≤ b2 ∧ b2 < 192 ∧ 128 ≤ b3 ∧ b3 < 192 then
    some ((b - 240) * 262144 + (b1 - 128) * 4096 + (b2 - 128) * 64 + (b3 - 128))
  else none

/-- Decode one UTF-8 sequence whose lead byte is `b` and whose remaining
input is `rest`, returning the character and the rest of the buffer.
Stray continuation bytes (`0x80..0xC1` leads) and truncated sequences
yield `none`. -/
def utf8DecodeStep (b : Nat) (rest : List Nat) : Option (Char × List Nat) :=
  if b < 128 then some (Char.ofNat b, rest)
  else if b < 224 then
    (take1 rest).bind (fun p =>
      (utf8Scalar2 b p.1).map (fun v => (Char.ofNat v, p.2)))
  else if b < 240 then
    (take1 rest).bind (fun p =>
      (take1 p.2).bind (fun q =>
        (utf8Scalar3 b p.1 q.1).map (fun v => (Char.ofNat v, q.2))))
  else
    (take1 rest).bind (fun p =>
      (take1 p.2).bind (fun q =>
        (take1 q.2).bind (fun w =>
          (utf8Scalar4 b p.1 q.1 w.1).map (fun v => (Char.ofNat v, w.2)))))

/-- Fuel-indexed UTF-8 decoding loop; one unit of fuel is spent per
decoded character, so any fuel of at least the byte length suffices. -/
def utf8DecodeGo : Nat → List Nat → Option (List Char)
  | _, [] => some []
  | 0, _ :: _ => none
  | fuel + 1, b :: rest =>
    (utf8DecodeStep b rest).bind
      (fun cr => (utf8DecodeGo fuel cr.2).map (fun cs => cr.1 :: cs))

/-- Model of Rust UTF-8 validation/decoding (`String::from_utf8`,
`str::from_utf8`): a validating decoder that rejects overlong forms,
surrogates, scalar values above `0x10FFFF`, truncated sequences and stray
continuation bytes, as the Rust standard library does. `none` models
`Err(FromUtf8Error)`. -/
def utf8Decode (l : List Nat) : Option (List Char) :=
  utf8DecodeGo l.length l

/-! ## Structured mode: serde_json model

`PingRequest`/`PingResponse` derive `serde::Serialize`/`Deserialize` with
`#[serde(default)]` and are moved through `serde_json::to_string` /
`serde_json::from_slice`. The model below covers the JSON fragment these
single-string-field messages inhabit: strings (with the exact escaping
rules serde_json uses when writing, and the escape forms it accepts when
reading, except surrogate-pair escapes) and objects of such values,
without insignificant whitespace (serde_json never emits any). -/

/-- Left curly brace character (written via its code point). -/
def lcurly : Char := Char.ofNat 123

/-- Right curly brace character (written via its code point). -/
def rcurly : Char := Char.ofNat 125

/-- The hex digit serde_json writes (lowercase). -/
def hexDigit (n : Nat) : Char :=
  if n < 10 then Char.ofNat (48 + n) else Char.ofNat (87 + n)

/-- Value of a hex digit as the JSON string grammar accepts it
(digits, lowercase and uppercase letters). -/
def hexVal (c : Char) : Option Nat :=
  if 48 ≤ c.toNat ∧ c.toNat ≤ 57 then some (c.toNat - 48)
  else if 97 ≤ c.toNat ∧ c.toNat ≤ 102 then some (c.toNat - 87)
  else if 65 ≤ c.toNat ∧ c.toNat ≤ 70 then some (c.toNat - 55)
  else none

/-- How serde_json writes one character inside a JSON string: `"` and `\`
get a backslash escape, control characters below `0x20` get the short
escapes `\b \t \n \f \r` or a `\u00XX` escape, everything else is written
as itself. -/
def jsonEscapeChar (c : Char) : List Char :=
  if c = '"' then ['\\', '"']
  else if c = '\\' then ['\\', '\\']
  else if c.toNat < 32 then
    if c.toNat = 8 then ['\\', 'b']
    else if c.toNat = 9 then ['\\', 't']
    else if c.toNat = 10 then ['\\', 'n']
    else if c.toNat = 12 then ['\\', 'f']
    else if c.toNat = 13 then ['\\', 'r']
    else ['\\', 'u', '0', '0', hexDigit (c.toNat / 16), hexDigit (c.toNat % 16)]
  else [c]

/-- A JSON string literal as serde_json writes it: quote, escaped
characters, quote. -/
def renderJsonString (s : String) : List Char :=
  '"' :: (s.data.flatMap jsonEscapeChar ++ ['"'])

/-- The JSON text serde_json writes for `PingRequest`/`PingResponse`
(one `name : String` field, always emitted): `{"name":<string>}`. -/
def renderNameObj (name : String) : List Char :=
  lcurly :: (renderJsonString "name" ++ (':' :: (renderJsonString name ++ [rcurly])))

/-- Pop the first character of the input, if any. -/
def take1c : List Char → Option (Char × List Char)
  | [] => none
  | c :: r => some (c, r)

/-- Resolution of a single-character JSON escape (`\"`, `\\`, `\/`, `\b`,
`\f`, `\n`, `\r`, `\t`). -/
def unescapeChar (e : Char) : Option Char :=
  if e = '"' then some '"'
  else if e = '\\' then some '\\'
  else if e = '/' then some '/'
  else if e = 'b' then some (Char.ofNat 8)
  else if e = 'f' then some (Char.ofNat 12)
  else if e = 'n' then some (Char.ofNat 10)
  else if e = 'r' then some (Char.ofNat 13)
  else if e = 't' then some (Char.ofNat 9)
  else none

/-- Read the four hex digits of a `\uXXXX` escape. -/
def parseU (l : List Char) : Option (Nat × List Char) :=
  (take1c l).bind (fun p =>
    (take1c p.2).bind (fun q =>
      (take1c q.2).bind (fun r =>
        (take1c r.2).bind (fun w =>
          (hexVal p.1).bind (fun h0 =>
            (hexVal q.1).bind (fun h1 =>
              (hexVal r.1).bind (fun h2 =>
                (hexVal w.1).bind (fun h3 =>
                  some (h0 * 4096 + h1 * 256 + h2 * 16 + h3, w.2)))))))))

/-- Fuel-indexed JSON string-body reader (the part after the opening
quote), modelling serde_json: ends at an unescaped quote, resolves
escapes, rejects raw control characters below `0x20`, unterminated
strings, bad escapes and lone-surrogate `\u` escapes. One unit of fuel
per produced character plus one for the closing quote. -/
def parseStrGo : Nat → List Char → Option (List Char × List Char)
  | _, [] => none
  | 0, _ :: _ => none
  | fuel + 1, c :: rest =>
    if c = '"' then some ([], rest)
    else if c = '\\' then
      (take1c rest).bind (fun p =>
        if p.1 = 'u' then
          (parseU p.2).bind (fun q =>
            if q.1 < 55296 ∨ (57343 < q.1 ∧ q.1 < 1114112) then
              (parseStrGo fuel q.2).map (fun w => (Char.ofNat q.1 :: w.1, w.2))
            else none)
        else
          (unescapeChar p.1).bind (fun u =>
            (parseStrGo fuel p.2).map (fun w => (u :: w.1, w.2))))
    else if c.toNat < 32 then none
    else (parseStrGo fuel rest).map (fun w => (c :: w.1, w.2))

/-- JSON string-body reader with enough fuel for its input. -/
def parseStr (l : List Char) : Option (List Char × List Char) :=
  parseStrGo l.length l

/-- JSON values of the fragment the twirp test messages use: strings and
objects. -/
inductive Json where
  | str (s : String)
  | obj (kvs : List (String × Json))

mutual

/-- Fuel-indexed JSON value reader for the string/object fragment. -/
def parseValueGo : Nat → List Char → Option (Json × List Char)
  | 0, _ => none
  | fuel + 1, l =>
    (take1c l).bind (fun p =>
      if p.1 = '"' then
        (parseStr p.2).map (fun w => (Json.str (String.mk w.1), w.2))
      else if p.1 = lcurly then
        (take1c p.2).bind (fun q =>
          if q.1 = rcurly then some (Json.obj [], q.2)
          else (parseMembersGo fuel p.2).map (fun w => (Json.obj w.1, w.2)))
      else none)

/-- Fuel-indexed reader for the members of a JSON object (after the
opening brace, knowing the object is non-empty):
`"key":value` then `,` and more members or the closing brace. -/
def parseMembersGo : Nat → List Char → Option (List (String × Json) × List Char)
  | 0, _ => none
  | fuel + 1, l =>
    (take1c l).bind (fun p =>
      if p.1 = '"' then
        (parseStr p.2).bind (fun k =>
          (take1c k.2).bind (fun q =>
            if q.1 = ':' then
              (parseValueGo fuel q.2).bind (fun v =>
                (take1c v.2).bind (fun w =>
                  if w.1 = ',' then
                    (parseMembersGo fuel w.2).map
                      (fun m => ((String.mk k.1, v.1) :: m.1, m.2))
                  else if w.1 = rcurly then some ([(String.mk k.1, v.1)], w.2)
                  else none))
            else none))
      else none)

end

/-- Model of `serde_json::from_slice`'s parsing stage on the fragment:
parse one JSON value covering the whole input (serde_json allows only
whitespace after the value and the twirp wire bodies carry none). -/
def parseJson (cs : List Char) : Option Json :=
  (parseValueGo (cs.length + 1) cs).bind (fun p => if p.2 = [] then some p.1 else none)

/-- Resolution of the `name` field from the object members named
`"name"`: none of them means the `#[serde(default)]` fallback `""`,
exactly one string-valued one is the value, a non-string value or a
duplicate is an error. -/
def pingNameFromMembers : List (String × Json) → Option String
  | [] => some ""
  | [(_, Json.str s)] => some s
  | _ => none

/-- Model of the derived `Deserialize` for a message with a single
`name : String` field under `#[serde(default)]`: a JSON object; a missing
`name` member falls back to the default `""`, a non-string or duplicate
`name` member is an error, unknown members are ignored (serde's default). -/
def pingNameFromJson : Json → Option String
  | Json.obj kvs => pingNameFromMembers (kvs.filter (fun kv => kv.1 == "name"))
  | _ => none

/-- Structured-mode encoding of a `name` message: the UTF-8 bytes of the
serde_json text. -/
def jsonEncodeName (name : String) : List Nat :=
  utf8Encode (String.mk (renderNameObj name))

/-- Structured-mode decoding of a `name` message
(`serde_json::from_slice`): UTF-8 decode, parse, deserialize. -/
def jsonDecodeName (bytes : List Nat) : Option String :=
  (utf8Decode bytes).bind (fun cs => (parseJson cs).bind pingNameFromJson)

/-- serde_json encoding of `PingRequest` (structured mode). -/
def jsonEncodePingRequest (v : PingRequest) : List Nat := jsonEncodeName v.name

/-- serde_json decoding of `PingRequest` (structured mode). -/
def jsonDecodePingRequest (bytes : List Nat) : Option PingRequest :=
  (jsonDecodeName bytes).map PingRequest.mk

/-- serde_json encoding of `PingResponse` (structured mode). -/
def jsonEncodePingResponse (v : PingResponse) : List Nat := jsonEncodeName v.name

/-- serde_json decoding of `PingResponse` (structured mode). -/
def jsonDecodePingResponse (bytes : List Nat) : Option PingResponse :=
  (jsonDecodeName bytes).map PingResponse.mk

/-! ## Test-helper body readers (`crates/twirp/src/test.rs`)

These helpers read a whole body and `.expect(...)` the decode: a failed
decode is a panic, modelled as `none`. -/

/-- `read_string_body` from `crates/twirp/src/test.rs`: collect the body
bytes and `String::from_utf8(data).expect("non-utf8 body")`. `some s`
models the returned string; `none` models the `expect` panic on a
non-UTF-8 body. -/
def read_string_body (bytes : List Nat) : Option String :=
  (utf8Decode bytes).map String.mk

/-- `read_json_body::<PingRequest>` from `crates/twirp/src/test.rs`:
collect the body bytes and
`serde_json::from_slice(&data).expect("twirp response isn't valid JSON")`.
`some req` models the returned value; `none` models the `expect` panic on
a malformed body. -/
def read_json_body_ping (bytes : List Nat) : Option PingRequest :=
  jsonDecodePingRequest bytes

/-! ## Binary mode: prost model

`PingRequest`/`PingResponse` derive `prost::Message` with one `string`
field at tag 2. prost encodes proto3 default values ("" here) as nothing,
and a non-default string as key byte `0x12` (tag 2, wire type 2), varint
byte length, UTF-8 bytes. -/

/-- LEB128 varint encoding (protobuf base-128 varints). -/
def varintEncode (n : Nat) : List Nat :=
  if _h : n < 128 then [n] else (128 + n % 128) :: varintEncode (n / 128)
termination_by n
decreasing_by exact Nat.div_lt_self (by omega) (by omega)

/-- LEB128 varint decoding; `none` on a truncated varint. -/
def varintDecode : List Nat → Option (Nat × List Nat)
  | [] => none
  | b :: rest =>
    if b < 128 then some (b, rest)
    else (varintDecode rest).bind (fun p => some (b - 128 + 128 * p.1, p.2))

/-- prost encoding of a message with one `string` field at tag 2
(`PingRequest`/`PingResponse`): nothing for the default `""`, else key
byte `0x12`, varint length, UTF-8 bytes. -/
def protoEncodeName (name : String) : List Nat :=
  if name = "" then []
  else 18 :: (varintEncode (utf8Encode name).length ++ utf8Encode name)

/-- Skipping one unknown field given its key, as prost's `skip_field`
does for the wire types the test messages can meet (varint, 64-bit,
length-delimited, 32-bit); group and invalid wire types are errors. -/
def protoSkip (key : Nat) (buf : List Nat) : Option (List Nat) :=
  if key % 8 = 0 then (varintDecode buf).map (fun p => p.2)
  else if key % 8 = 1 then (if 8 ≤ buf.length then some (buf.drop 8) else none)
  else if key % 8 = 2 then
    (varintDecode buf).bind (fun p =>
      if p.1 ≤ p.2.length then some (p.2.drop p.1) else none)
  else if key % 8 = 5 then (if 4 ≤ buf.length then some (buf.drop 4) else none)
  else none

/-- Fuel-indexed prost decode loop for a one-string-field message
(`Message::decode` merging into the default): read a key varint; tag 2
with wire type 2 reads a length-delimited UTF-8 string into the field
(last value wins), tag 2 with another wire type is an error, tag 0 is an
error, other tags are skipped. One unit of fuel per field. -/
def protoFieldsGo : Nat → String → List Nat → Option String
  | _, acc, [] => some acc
  | 0, _, _ :: _ => none
  | fuel + 1, acc, b :: rest =>
    (varintDecode (b :: rest)).bind (fun k =>
      if k.1 / 8 = 0 then none
      else if k.1 / 8 = 2 then
        if k.1 % 8 = 2 then
          (varintDecode k.2).bind (fun len =>
            if len.1 ≤ len.2.length then
              (utf8Decode (len.2.take len.1)).bind (fun cs =>
                protoFieldsGo fuel (String.mk cs) (len.2.drop len.1))
            else none)
        else none
      else (protoSkip k.1 k.2).bind (fun r => protoFieldsGo fuel acc r))

/-- prost decoding of a one-string-field message from a whole buffer. -/
def protoDecodeName (buf : List Nat) : Option String :=
  protoFieldsGo buf.length "" buf

/-- prost encoding of `PingRequest` (binary mode). -/
def protoEncodePingRequest (v : PingRequest) : List Nat := protoEncodeName v.name

/-- prost decoding of `PingRequest` (binary mode). -/
def protoDecodePingRequest (buf : List Nat) : Option PingRequest :=
  (protoDecodeName buf).map PingRequest.mk

/-- prost encoding of `PingResponse` (binary mode). -/
def protoEncodePingResponse (v : PingResponse) : List Nat := protoEncodeName v.name

/-- prost decoding of `PingResponse` (binary mode). -/
def protoDecodePingResponse (buf : List Nat) : Option PingResponse :=
  (protoDecodeName buf).map PingResponse.mk

/-! ## Client request pipeline pieces -/

/-- Modelled from the spec: the client-side error taxonomy (§7, §4.4; the
core crate's `client.rs` is not under `src/`): an invalid-URL
construction error, a transport-level failure (never reached the server)
and a protocol error carrying the decoded envelope and HTTP status. -/
inductive TwirpClientError where
  | invalidUrl (msg : String)
  | httpError (msg : String)
  | protocolError (status : Nat) (err : TwirpErrorResponse)
  deriving DecidableEq, Repr

/-- Model of the url crate's parsed hierarchical HTTP URL, reduced to the
parts the twirp client manipulates: scheme, host and path segments. As in
the WHATWG URL model the path `/twirp/` has the segments
`["twirp", ""]` and `/twirp` has `["twirp"]`. -/
structure Url where
  scheme : String
  host : String
  path : List String
  deriving DecidableEq, Repr

/-- Model of the url crate's `Url::join` for a relative-path reference
with no scheme, no leading slash and no dot segments (the shape of
`"test.TestAPI/Ping"`): the reference's segments replace the last segment
of the base path (WHATWG relative resolution). -/
def Url.joinRelative (base : Url) (segments : List String) : Url :=
  { base with path := base.path.dropLast ++ segments }

/-- `TestAPIClientExt::ping_url` from `crates/twirp/src/test.rs`:
`Ok(base_url.join("test.TestAPI/Ping")?)`; joining this fixed relative
reference onto a hierarchical base URL cannot fail, so the result is
always `Ok`. -/
def ping_url (base : Url) : Except TwirpClientError Url :=
  .ok (base.joinRelative ["test.TestAPI", "Ping"])

/-- `<HttpTwirpClient as TestAPIClient>::boom` from
`crates/twirp/src/test.rs`: the body is `todo!()`, which panics
unconditionally with "not yet implemented" before producing any value;
the panic is modelled as `none` (a completed call would be `some` of an
`Ok`/`Err` result). -/
def clientBoom (_req : PingRequest) : Option (Except TwirpClientError PingResponse) :=
  none

/-! ## Router / dispatcher (spec-modelled) -/

/-- Modelled from the spec: the router's registry (§3 ServiceMethod
registration, §4.3; the core crate's `server.rs` is not under `src/`) —
an append-only table from fully-qualified method names to handlers,
specialized to the test service where every method takes `PingRequest`
and returns `PingResponse`. -/
def Router := List (String × (PingRequest → Except TwirpErrorResponse PingResponse))

/-- The table built by `test_api_router` in `crates/twirp/src/test.rs`:
`add_method("test.TestAPI/Ping", ... api.ping ...)` then
`add_method("test.TestAPI/Boom", ... api.boom ...)`. -/
def test_api_router : Router :=
  [("test.TestAPI/Ping", TestAPIServer.ping), ("test.TestAPI/Boom", TestAPIServer.boom)]

/-- Modelled from the spec: dispatch of one request against the immutable
table (§4.3): case-sensitive exact path lookup, handler invocation;
unmatched paths yield the bad-route error envelope. The table is taken by
shared immutable reference — `dispatch` returns only the handler result
and cannot alter the table, so concurrent dispatches depend only on their
own request. -/
def dispatch (router : Router) (path : String) (req : PingRequest) :
    Except TwirpErrorResponse PingResponse :=
  match router.find? (fun entry => entry.1 == path) with
  | some entry => entry.2 req
  | none => .error { code := .BadRoute, msg := "bad route" }

/-! ## Proof development -/

theorem utf8DecodeStep_encodeChar (c : Char) (rest : List Nat) :
    ∃ b t, utf8EncodeChar c = b :: t ∧ utf8DecodeStep b (t ++ rest) = some (c, rest) := by
  have hofn : Char.ofNat c.toNat = c := Char.ofNat_toNat c
  have hval : c.toNat < 55296 ∨ (57343 < c.toNat ∧ c.toNat < 1114112) := c.valid
  by_cases h1 : c.toNat < 128
  · refine ⟨c.toNat, [], ?_, ?_⟩
    · unfold utf8EncodeChar
      rw [if_pos h1]
    · rw [List.nil_append]
      unfold utf8DecodeStep
      rw [if_pos h1, hofn]
  · by_cases h2 : c.toNat < 2048
    · refine ⟨192 + c.toNat / 64, [128 + c.toNat % 64], ?_, ?_⟩
      · unfold utf8EncodeChar
        rw [if_neg h1, if_pos h2]
      · rw [List.cons_append, List.nil_append]
        unfold utf8DecodeStep
        rw [if_neg (by omega), if_pos (by omega), take1, Option.some_bind]
        simp only
        rw [utf8Scalar2, if_pos (by refine ⟨by omega, by omega, by omega⟩), Option.map_some']
        rw [show (192 + c.toNat / 64 - 192) * 64 + (128 + c.toNat % 64 - 128) = c.toNat by omega,
          hofn]
    · by_cases h3 : c.toNat < 65536
      · refine ⟨224 + c.toNat / 4096, [128 + c.toNat / 64 % 64, 128 + c.toNat % 64], ?_, ?_⟩
        · unfold utf8EncodeChar
          rw [if_neg h1, if_neg h2, if_pos h3]
        · rw [List.cons_append, List.cons_append, List.nil_append]
          unfold utf8DecodeStep
          rw [if_neg (by omega), if_neg (by omega), if_pos (by omega), take1, Option.some_bind]
          simp only
          rw [take1, Option.some_bind]
          simp only
          rw [utf8Scalar3,
            if_pos (by refine ⟨by omega, by omega, by omega, by omega, by omega, by omega⟩),
            Option.map_some']
          rw [show (224 + c.toNat / 4096 - 224) * 4096 + (128 + c.toNat / 64 % 64 - 128) * 64 +
              (128 + c.toNat % 64 - 128) = c.toNat by omega, hofn]
      · refine ⟨240 + c.toNat / 262144,
          [128 + c.toNat / 4096 % 64, 128 + c.toNat / 64 % 64, 128 + c.toNat % 64], ?_, ?_⟩
        · unfold utf8EncodeChar
          rw [if_neg h1, if_neg h2, if_neg h3]
        · rw [List.cons_append, List.cons_append, List.cons_append, List.nil_append]
          unfold utf8DecodeStep
          rw [if_neg (by omega), if_neg (by omega), if_neg (by omega), take1, Option.some_bind]
          simp only
          rw [take1, Option.some_bind]
          simp only
          rw [take1, Option.some_bind]
          simp only
          rw [utf8Scalar4,
            if_pos (by
              refine ⟨by omega, by omega, by omega, by omega, by omega, by omega, by omega,
                by omega, by omega⟩),
            Option.map_some']
          rw [show (240 + c.toNat / 262144 - 240) * 262144 +
              (128 + c.toNat / 4096 % 64 - 128) * 4096 + (128 + c.toNat / 64 % 64 - 128) * 64 +
              (128 + c.toNat % 64 - 128) = c.toNat by omega, hofn]

theorem utf8DecodeGo_encodeChar (c : Char) (rest : List Nat) (fuel : Nat) :
    utf8DecodeGo (fuel + 1) (utf8EncodeChar c ++ rest) =
      (utf8DecodeGo fuel rest).map (fun cs => c :: cs) := by
  obtain ⟨b, t, he, hstep⟩ := utf8DecodeStep_encodeChar c rest
  rw [he, List.cons_append, utf8DecodeGo, hstep, Option.some_bind]

theorem utf8DecodeGo_flatMap (cs : List Char) (rest : List Nat) (fuel : Nat) :
    utf8DecodeGo (fuel + cs.length) (cs.flatMap utf8EncodeChar ++ rest) =
      (utf8DecodeGo fuel rest).map (fun tail => cs ++ tail) := by
  induction cs with
  | nil =>
    rw [List.flatMap_nil, List.nil_append, List.length_nil, Nat.add_zero]
    cases utf8DecodeGo fuel rest <;> rfl
  | cons c cs ih =>
    rw [List.flatMap_cons, List.append_assoc, List.length_cons, ← Nat.add_assoc,
      utf8DecodeGo_encodeChar, ih, Option.map_map]
    rfl

theorem utf8EncodeChar_length_pos (c : Char) : 1 ≤ (utf8EncodeChar c).length := by
  unfold utf8EncodeChar
  split
  · simp
  · split
    · simp
    · split <;> simp

theorem length_le_utf8Encode_length (cs : List Char) : cs.length ≤ (cs.flatMap utf8EncodeChar).length := by
  induction cs with
  | nil => simp
  | cons c cs ih =>
    rw [List.flatMap_cons, List.length_append, List.length_cons]
    have := utf8EncodeChar_length_pos c
    omega

/-- UTF-8 round trip: decoding the encoding of any string recovers its
characters. -/
theorem utf8Decode_utf8Encode (s : String) : utf8Decode (utf8Encode s) = some s.data := by
  have hlen := length_le_utf8Encode_length s.data
  have h := utf8DecodeGo_flatMap s.data []
      ((s.data.flatMap utf8EncodeChar).length - s.data.length)
  rw [List.append_nil, Nat.sub_add_cancel hlen] at h
  rw [utf8Decode, utf8Encode, h, utf8DecodeGo, Option.map_some', List.append_nil]

theorem hexVal_hexDigit (n : Nat) (h : n < 16) : hexVal (hexDigit n) = some n := by
  interval_cases n <;> decide

theorem parseStrGo_escapeChar (c : Char) (t : List Char) (fuel : Nat) :
    parseStrGo (fuel + 1) (jsonEscapeChar c ++ t) =
      (parseStrGo fuel t).map (fun w => (c :: w.1, w.2)) := by
  by_cases hq : c = '"'
  · subst hq
    rw [show jsonEscapeChar '"' = ['\\', '"'] from by decide, List.cons_append,
      List.cons_append, List.nil_append, parseStrGo,
      if_neg (show ¬ ('\\' = '"') from by decide), if_pos (show '\\' = '\\' from rfl),
      take1c, Option.some_bind]
    dsimp only
    rw [if_neg (show ¬ ('"' = 'u') from by decide),
      show unescapeChar '"' = some '"' from by decide, Option.some_bind]
  · by_cases hb : c = '\\'
    · subst hb
      rw [show jsonEscapeChar '\\' = ['\\', '\\'] from by decide, List.cons_append,
        List.cons_append, List.nil_append, parseStrGo,
        if_neg (show ¬ ('\\' = '"') from by decide), if_pos (show '\\' = '\\' from rfl),
        take1c, Option.some_bind]
      dsimp only
      rw [if_neg (show ¬ ('\\' = 'u') from by decide),
        show unescapeChar '\\' = some '\\' from by decide, Option.some_bind]
    · by_cases h32 : c.toNat < 32
      · have hofn : Char.ofNat c.toNat = c := Char.ofNat_toNat c
        by_cases h8 : c.toNat = 8
        · have he : jsonEscapeChar c = ['\\', 'b'] := by
            unfold jsonEscapeChar
            rw [if_neg hq, if_neg hb, if_pos h32, if_pos h8]
          rw [he, List.cons_append, List.cons_append, List.nil_append, parseStrGo,
            if_neg (show ¬ ('\\' = '"') from by decide), if_pos (show '\\' = '\\' from rfl),
            take1c, Option.some_bind]
          dsimp only
          rw [if_neg (show ¬ ('b' = 'u') from by decide),
            show unescapeChar 'b' = some (Char.ofNat 8) from by decide, Option.some_bind,
            show (8 : Nat) = c.toNat from h8.symm, hofn]
        · by_cases h9 : c.toNat = 9
          · have he : jsonEscapeChar c = ['\\', 't'] := by
              unfold jsonEscapeChar
              rw [if_neg hq, if_neg hb, if_pos h32, if_neg h8, if_pos h9]
            rw [he, List.cons_append, List.cons_append, List.nil_append, parseStrGo,
              if_neg (show ¬ ('\\' = '"') from by decide), if_pos (show '\\' = '\\' from rfl),
              take1c, Option.some_bind]
            dsimp only
            rw [if_neg (show ¬ ('t' = 'u') from by decide),
              show unescapeChar 't' = some (Char.ofNat 9) from by decide, Option.some_bind,
              show (9 : Nat) = c.toNat from h9.symm, hofn]
          · by_cases h10 : c.toNat = 10
            · have he : jsonEscapeChar c = ['\\', 'n'] := by
                unfold jsonEscapeChar
                rw [if_neg hq, if_neg hb, if_pos h32, if_neg h8, if_neg h9, if_pos h10]
              rw [he, List.cons_append, List.cons_append, List.nil_append, parseStrGo,
                if_neg (show ¬ ('\\' = '"') from by decide), if_pos (show '\\' = '\\' from rfl),
                take1c, Option.some_bind]
              dsimp only
              rw [if_neg (show ¬ ('n' = 'u') from by decide),
                show unescapeChar 'n' = some (Char.ofNat 10) from by decide, Option.some_bind,
                show (10 : Nat) = c.toNat from h10.symm, hofn]
            · by_cases h12 : c.toNat = 12
              · have he : jsonEscapeChar c = ['\\', 'f'] := by
                  unfold jsonEscapeChar
                  rw [if_neg hq, if_neg hb, if_pos h32, if_neg h8, if_neg h9, if_neg h10,
                    if_pos h12]
                rw [he, List.cons_append, List.cons_append, List.nil_append, parseStrGo,
                  if_neg (show ¬ ('\\' = '"') from by decide), if_pos (show '\\' = '\\' from rfl),
                  take1c, Option.some_bind]
                dsimp only
                rw [if_neg (show ¬ ('f' = 'u') from by decide),
                  show unescapeChar 'f' = some (Char.ofNat 12) from by decide, Option.some_bind,
                  show (12 : Nat) = c.toNat from h12.symm, hofn]
              · by_cases h13 : c.toNat = 13
                · have he : jsonEscapeChar c = ['\\', 'r'] := by
                    unfold jsonEscapeChar
                    rw [if_neg hq, if_neg hb, if_pos h32, if_neg h8, if_neg h9, if_neg h10,
                      if_neg h12, if_pos h13]
                  rw [he, List.cons_append, List.cons_append, List.nil_append, parseStrGo,
                    if_neg (show ¬ ('\\' = '"') from by decide),
                    if_pos (show '\\' = '\\' from rfl), take1c, Option.some_bind]
                  dsimp only
                  rw [if_neg (show ¬ ('r' = 'u') from by decide),
                    show unescapeChar 'r' = some (Char.ofNat 13) from by decide,
                    Option.some_bind, show (13 : Nat) = c.toNat from h13.symm, hofn]
                · have he : jsonEscapeChar c =
                      ['\\', 'u', '0', '0', hexDigit (c.toNat / 16), hexDigit (c.toNat % 16)] := by
                    unfold jsonEscapeChar
                    rw [if_neg hq, if_neg hb, if_pos h32, if_neg h8, if_neg h9, if_neg h10,
                      if_neg h12, if_neg h13]
                  rw [he, List.cons_append, List.cons_append, List.cons_append,
                    List.cons_append, List.cons_append, List.cons_append, List.nil_append,
                    parseStrGo, if_neg (show ¬ ('\\' = '"') from by decide),
                    if_pos (show '\\' = '\\' from rfl), take1c, Option.some_bind]
                  dsimp only
                  rw [if_pos (show 'u' = 'u' from rfl)]
                  rw [parseU, take1c, Option.some_bind]
                  dsimp only
                  rw [take1c, Option.some_bind]
                  dsimp only
                  rw [take1c, Option.some_bind]
                  dsimp only
                  rw [take1c, Option.some_bind]
                  dsimp only
                  rw [show hexVal '0' = some 0 from by decide, Option.some_bind,
                    Option.some_bind, hexVal_hexDigit (c.toNat / 16) (by omega),
                    Option.some_bind, hexVal_hexDigit (c.toNat % 16) (by omega),
                    Option.some_bind, Option.some_bind]
                  dsimp only
                  rw [if_pos (show 0 * 4096 + 0 * 256 + c.toNat / 16 * 16 + c.toNat % 16 < 55296 ∨
                      (57343 < 0 * 4096 + 0 * 256 + c.toNat / 16 * 16 + c.toNat % 16 ∧
                        0 * 4096 + 0 * 256 + c.toNat / 16 * 16 + c.toNat % 16 < 1114112)
                      from Or.inl (by omega))]
                  rw [show 0 * 4096 + 0 * 256 + c.toNat / 16 * 16 + c.toNat % 16 = c.toNat
                    from by omega, hofn]
      · have he : jsonEscapeChar c = [c] := by
          unfold jsonEscapeChar
          rw [if_neg hq, if_neg hb, if_neg h32]
        rw [he, List.cons_append, List.nil_append, parseStrGo, if_neg hq, if_neg hb,
          if_neg h32]

theorem parseStrGo_flatMap (cs : List Char) (t : List Char) (fuel : Nat) :
    parseStrGo (fuel + 1 + cs.length) (cs.flatMap jsonEscapeChar ++ '"' :: t) =
      some (cs, t) := by
  induction cs generalizing fuel with
  | nil =>
    rw [List.flatMap_nil, List.nil_append, List.length_nil, Nat.add_zero, parseStrGo,
      if_pos (show '"' = '"' from rfl)]
  | cons c cs ih =>
    rw [List.flatMap_cons, List.append_assoc, List.length_cons, show fuel + 1 + (cs.length + 1) =
      (fuel + 1 + cs.length) + 1 from by omega, parseStrGo_escapeChar, ih, Option.map_some']

theorem jsonEscapeChar_length_pos (c : Char) : 1 ≤ (jsonEscapeChar c).length := by
  unfold jsonEscapeChar
  split
  · simp
  · split
    · simp
    · split
      · split
        · simp
        · split
          · simp
          · split
            · simp
            · split
              · simp
              · split <;> simp
      · simp

theorem length_le_jsonEscape_length (cs : List Char) :
    cs.length ≤ (cs.flatMap jsonEscapeChar).length := by
  induction cs with
  | nil => simp
  | cons c cs ih =>
    rw [List.flatMap_cons, List.length_append, List.length_cons]
    have := jsonEscapeChar_length_pos c
    omega

/-- The string-body reader with ambient fuel inverts serde_json's string
escaping. -/
theorem parseStr_flatMap (cs : List Char) (t : List Char) :
    parseStr (cs.flatMap jsonEscapeChar ++ '"' :: t) = some (cs, t) := by
  have hlen := length_le_jsonEscape_length cs
  have h := parseStrGo_flatMap cs t
      ((cs.flatMap jsonEscapeChar).length + t.length - cs.length)
  rw [parseStr, List.length_append, List.length_cons]
  rw [show (cs.flatMap jsonEscapeChar).length + (t.length + 1) =
    ((cs.flatMap jsonEscapeChar).length + t.length - cs.length) + 1 + cs.length
    from by omega]
  exact h

theorem parseValueGo_renderString (name : String) (rest : List Char) (fuel : Nat) :
    parseValueGo (fuel + 1) (renderJsonString name ++ rest) = some (Json.str name, rest) := by
  rw [renderJsonString, List.cons_append, List.append_assoc, List.singleton_append,
    parseValueGo, take1c, Option.some_bind]
  dsimp only
  rw [if_pos (show '"' = '"' from rfl), parseStr_flatMap, Option.map_some']

theorem parseMembersGo_name (name : String) (rest : List Char) (fuel : Nat) :
    parseMembersGo (fuel + 2)
        (renderJsonString "name" ++ (':' :: (renderJsonString name ++ (rcurly :: rest)))) =
      some ([("name", Json.str name)], rest) := by
  show parseMembersGo (fuel + 1 + 1)
      (renderJsonString "name" ++ (':' :: (renderJsonString name ++ (rcurly :: rest)))) = _
  rw [show renderJsonString "name" ++ (':' :: (renderJsonString name ++ (rcurly :: rest))) =
      ('"' : Char) :: (("name".data.flatMap jsonEscapeChar) ++
        ('"' :: (':' :: (renderJsonString name ++ (rcurly :: rest)))))
    from by rw [renderJsonString, List.cons_append, List.append_assoc, List.singleton_append]]
  rw [parseMembersGo, take1c, Option.some_bind]
  dsimp only
  rw [if_pos (show '"' = '"' from rfl), parseStr_flatMap, Option.some_bind]
  dsimp only
  rw [take1c, Option.some_bind]
  dsimp only
  rw [if_pos (show ':' = ':' from rfl), parseValueGo_renderString, Option.some_bind]
  dsimp only
  rw [take1c, Option.some_bind]
  dsimp only
  rw [if_neg (show ¬ (rcurly = ',') from by decide), if_pos (show rcurly = rcurly from rfl)]

theorem parseValueGo_renderNameObj (name : String) (rest : List Char) (fuel : Nat) :
    parseValueGo (fuel + 3) (renderNameObj name ++ rest) =
      some (Json.obj [("name", Json.str name)], rest) := by
  show parseValueGo (fuel + 2 + 1) (renderNameObj name ++ rest) = _
  rw [renderNameObj, List.cons_append, List.append_assoc, List.cons_append, List.append_assoc,
    List.singleton_append, parseValueGo, take1c, Option.some_bind]
  dsimp only
  rw [if_neg (show ¬ (lcurly = '"') from by decide), if_pos (show lcurly = lcurly from rfl)]
  rw [show take1c (renderJsonString "name" ++
        (':' :: (renderJsonString name ++ (rcurly :: rest)))) =
      some ('"', ("name".data.flatMap jsonEscapeChar ++ ['"']) ++
        (':' :: (renderJsonString name ++ (rcurly :: rest))))
    from by rw [renderJsonString, List.cons_append, take1c]]
  rw [Option.some_bind]
  dsimp only
  rw [if_neg (show ¬ (('"' : Char) = rcurly) from by decide), parseMembersGo_name,
    Option.map_some']

theorem parseJson_renderNameObj (name : String) :
    parseJson (renderNameObj name) = some (Json.obj [("name", Json.str name)]) := by
  have hlen : 2 ≤ (renderNameObj name).length := by
    simp only [renderNameObj, renderJsonString, List.length_cons, List.length_append]
    omega
  have h := parseValueGo_renderNameObj name [] ((renderNameObj name).length + 1 - 3)
  rw [List.append_nil] at h
  rw [parseJson, show (renderNameObj name).length + 1 =
    ((renderNameObj name).length + 1 - 3) + 3 from by omega, h, Option.some_bind]
  dsimp only
  rw [if_pos rfl]

/-- Structured-mode round trip at the message level. -/
theorem jsonDecodeName_encode (name : String) :
    jsonDecodeName (jsonEncodeName name) = some name := by
  rw [jsonEncodeName, jsonDecodeName, utf8Decode_utf8Encode, Option.some_bind]
  dsimp only
  rw [parseJson_renderNameObj, Option.some_bind]
  rfl

theorem varintDecode_encode (n : Nat) (rest : List Nat) :
    varintDecode (varintEncode n ++ rest) = some (n, rest) := by
  induction n using Nat.strong_induction_on with
  | _ n ih =>
    by_cases h : n < 128
    · rw [varintEncode, dif_pos h, List.cons_append, List.nil_append, varintDecode, if_pos h]
    · rw [varintEncode, dif_neg h, List.cons_append, varintDecode, if_neg (by omega),
        ih (n / 128) (Nat.div_lt_self (by omega) (by omega)), Option.some_bind]
      dsimp only
      rw [show 128 + n % 128 - 128 + 128 * (n / 128) = n from by omega]

/-- Binary-mode round trip at the message level. -/
theorem protoDecodeName_encode (name : String) :
    protoDecodeName (protoEncodeName name) = some name := by
  by_cases h : name = ""
  · subst h
    rfl
  · rw [protoEncodeName, if_neg h, protoDecodeName, List.length_cons, protoFieldsGo,
      varintDecode, if_pos (by omega), Option.some_bind]
    dsimp only
    rw [if_neg (by decide), if_pos (by decide), if_pos (by decide), varintDecode_encode,
      Option.some_bind]
    dsimp only
    rw [if_pos (Nat.le_refl _), List.take_length, List.drop_length, utf8Decode_utf8Encode,
      Option.some_bind, protoFieldsGo]

/-! ## Claim theorems -/

/-- C1: every handler invocation — `TestAPIServer::ping`,
`TestAPIServer::boom` and `HaberdasherAPIServer::make_hat` — is a total
function into `Result<Response, TwirpErrorResponse>` and, for every
request value, yields exactly one of a success payload or an error
envelope; no invocation panics (the embeddings are total functions) or
produces a raw unstructured failure. -/
theorem handlers_yield_exactly_one_outcome (req : PingRequest) (now : Nat)
    (mreq : MakeHatRequest) :
    (((∃ r, TestAPIServer.ping req = .ok r) ∧ ¬ ∃ e, TestAPIServer.ping req = .error e) ∨
      ((∃ e, TestAPIServer.ping req = .error e) ∧ ¬ ∃ r, TestAPIServer.ping req = .ok r)) ∧
    (((∃ r, TestAPIServer.boom req = .ok r) ∧ ¬ ∃ e, TestAPIServer.boom req = .error e) ∨
      ((∃ e, TestAPIServer.boom req = .error e) ∧ ¬ ∃ r, TestAPIServer.boom req = .ok r)) ∧
    (((∃ r, HaberdasherAPIServer.make_hat now mreq = .ok r) ∧
        ¬ ∃ e, HaberdasherAPIServer.make_hat now mreq = .error e) ∨
      ((∃ e, HaberdasherAPIServer.make_hat now mreq = .error e) ∧
        ¬ ∃ r, HaberdasherAPIServer.make_hat now mreq = .ok r)) := by
  refine ⟨Or.inl ⟨⟨_, rfl⟩, ?_⟩, Or.inr ⟨⟨_, rfl⟩, ?_⟩, ?_⟩
  · rintro ⟨e, he⟩
    simp [TestAPIServer.ping] at he
  · rintro ⟨r, hr⟩
    simp [TestAPIServer.boom] at hr
  · by_cases hz : mreq.inches = 0
    · refine Or.inr ⟨⟨invalid_argument "inches", ?_⟩, ?_⟩
      · rw [HaberdasherAPIServer.make_hat, if_pos hz]
      · rintro ⟨r, hr⟩
        rw [HaberdasherAPIServer.make_hat, if_pos hz] at hr
        cases hr
    · refine Or.inl ⟨⟨⟨"black", "top hat", mreq.inches, some ⟨(now : Int), 0⟩⟩, ?_⟩, ?_⟩
      · rw [HaberdasherAPIServer.make_hat, if_neg hz]
      · rintro ⟨e, he⟩
        rw [HaberdasherAPIServer.make_hat, if_neg hz] at he
        cases he

/-- C2: `TestAPIServer::ping` — the handler registered under
`"test.TestAPI/Ping"` — returns `Ok(PingResponse { name: req.name })` for
every request: it echoes the name unchanged and never errs; dispatching
through the registered table does the same, and for `name="abc"` the
structured success payload is exactly the bytes of `{"name":"abc"}`. -/
theorem ping_echoes_name (req : PingRequest) :
    TestAPIServer.ping req = .ok { name := req.name } ∧
    dispatch test_api_router "test.TestAPI/Ping" req = .ok { name := req.name } ∧
    jsonEncodePingResponse { name := "abc" } = utf8Encode "\x7b\"name\":\"abc\"\x7d" := by
  refine ⟨rfl, rfl, by decide⟩

/-- C3: `TestAPIServer::boom` — the handler registered under
`"test.TestAPI/Boom"` — returns the error envelope `internal("boom!")`
(code `Internal`, message `"boom!"`) for every request and never a
success payload; dispatching through the registered table does the
same. -/
theorem boom_always_internal_error (req : PingRequest) :
    TestAPIServer.boom req = .error (internal "boom!") ∧
    (internal "boom!").code = TwirpErrorCode.Internal ∧
    (internal "boom!").msg = "boom!" ∧
    (¬ ∃ r, TestAPIServer.boom req = .ok r) ∧
    dispatch test_api_router "test.TestAPI/Boom" req = .error (internal "boom!") := by
  refine ⟨rfl, rfl, rfl, ?_, rfl⟩
  rintro ⟨r, hr⟩
  simp [TestAPIServer.boom] at hr

/-- C4: `<HttpTwirpClient as TestAPIClient>::boom` does NOT return a
`Result` value — its body is `todo!()`, which panics ("not yet
implemented") on every invocation, an unstructured unimplemented abort;
evaluated at the failing input `PingRequest { name: "abc" }` the modelled
call produces the panic marker `none` instead of any `Result`. -/
theorem client_boom_panics :
    clientBoom { name := "abc" } = none ∧
    ∀ req : PingRequest, ¬ ∃ r, clientBoom req = some r := by
  refine ⟨rfl, ?_⟩
  rintro req ⟨r, hr⟩
  simp [clientBoom] at hr

/-- C5 (counterexample): the claim that the body readers return either a
value or an InvalidArgument-kind error and never crash on a malformed
body is false: `read_string_body` on the non-UTF-8 body `[0xFF]` and
`read_json_body` on the non-JSON body `"not json"` both hit their
`.expect(...)` and panic (modelled `none`) — their types carry no error
envelope at all, so no InvalidArgument error is ever produced. -/
theorem read_body_panic_counterexample :
    read_string_body [255] = none ∧
    read_json_body_ping (utf8Encode "not json") = none ∧
    (¬ ∃ s, read_string_body [255] = some s) := by
  refine ⟨by decide, by decide, ?_⟩
  rintro ⟨s, hs⟩
  rw [show read_string_body [255] = none from by decide] at hs
  cases hs

/-- C5 (amended): for every byte sequence, the test-helper body readers
`read_string_body` / `read_json_body` either return the decoded value
(always, on well-formed bodies) or panic via `.expect(...)` (modelled
`none`) — a malformed (non-UTF-8 or non-JSON) body causes a panic, not an
InvalidArgument-kind error. -/
theorem read_body_value_or_panic (s : String) (bytes : List Nat) :
    read_string_body (utf8Encode s) = some s ∧
    read_json_body_ping (jsonEncodeName s) = some { name := s } ∧
    (read_string_body bytes = none ∨ ∃ t, read_string_body bytes = some t) ∧
    (read_json_body_ping bytes = none ∨ ∃ v, read_json_body_ping bytes = some v) := by
  refine ⟨?_, ?_, ?_, ?_⟩
  · rw [read_string_body, utf8Decode_utf8Encode, Option.map_some']
  · rw [read_json_body_ping, jsonDecodePingRequest, jsonDecodeName_encode, Option.map_some']
  · cases h : read_string_body bytes
    · exact Or.inl rfl
    · exact Or.inr ⟨_, rfl⟩
  · cases h : read_json_body_ping bytes
    · exact Or.inl rfl
    · exact Or.inr ⟨_, rfl⟩

/-- C6: for every `PingRequest` and `PingResponse` value, decoding the
encoding yields the value back, independently per mode: serde_json
(structured) and prost (binary) each round-trip; the two modes are
separate encode/decode pairs and no cross-mode decode appears in any
pipeline. -/
theorem codec_round_trip_per_mode (vreq : PingRequest) (vresp : PingResponse) :
    jsonDecodePingRequest (jsonEncodePingRequest vreq) = some vreq ∧
    jsonDecodePingResponse (jsonEncodePingResponse vresp) = some vresp ∧
    protoDecodePingRequest (protoEncodePingRequest vreq) = some vreq ∧
    protoDecodePingResponse (protoEncodePingResponse vresp) = some vresp := by
  refine ⟨?_, ?_, ?_, ?_⟩
  · rw [jsonEncodePingRequest, jsonDecodePingRequest, jsonDecodeName_encode, Option.map_some']
  · rw [jsonEncodePingResponse, jsonDecodePingResponse, jsonDecodeName_encode,
      Option.map_some']
  · rw [protoEncodePingRequest, protoDecodePingRequest, protoDecodeName_encode,
      Option.map_some']
  · rw [protoEncodePingResponse, protoDecodePingResponse, protoDecodeName_encode,
      Option.map_some']

/-- C7: `HaberdasherAPIServer::make_hat` returns the
`invalid_argument("inches")` envelope (kind InvalidArgument, message
"inches") and no success payload exactly when `inches == 0`, and a
success payload for every other request; the InvalidArgument kind maps to
HTTP status 400 and wire code `"invalid_argument"`. -/
theorem make_hat_error_mapping (now : Nat) (req : MakeHatRequest) :
    (req.inches = 0 →
      HaberdasherAPIServer.make_hat now req = .error (invalid_argument "inches")) ∧
    (req.inches ≠ 0 →
      HaberdasherAPIServer.make_hat now req =
        .ok { color := "black", name := "top hat", size := req.inches,
              timestamp := some { seconds := (now : Int), nanos := 0 } }) ∧
    (invalid_argument "inches").code = TwirpErrorCode.InvalidArgument ∧
    TwirpErrorCode.InvalidArgument.httpStatus = 400 ∧
    TwirpErrorCode.InvalidArgument.wireName = "invalid_argument" := by
  refine ⟨?_, ?_, rfl, rfl, rfl⟩
  · intro hz
    rw [HaberdasherAPIServer.make_hat, if_pos hz]
  · intro hnz
    rw [HaberdasherAPIServer.make_hat, if_neg hnz]

/-- C7 witness: the two hypotheses discharged at the concrete requests
`inches = 0` and `inches = 12` (at wall-clock second 0). -/
theorem make_hat_error_mapping_witness :
    HaberdasherAPIServer.make_hat 0 { inches := 0 } = .error (invalid_argument "inches") ∧
    HaberdasherAPIServer.make_hat 0 { inches := 12 } =
      .ok { color := "black", name := "top hat", size := 12,
            timestamp := some { seconds := 0, nanos := 0 } } :=
  ⟨(make_hat_error_mapping 0 { inches := 0 }).1 rfl,
   (make_hat_error_mapping 0 { inches := 12 }).2.1 (by decide)⟩

/-- C8: `ping_url` builds the target URL by a pure join of the base URL
with the fully-qualified method name `"test.TestAPI/Ping"`: the method
segments replace the base path's last segment and nothing else changes —
in particular a `"twirp"` mount segment appears in the result only if the
base URL already carried it, and a base of path `/twirp/` yields
`/twirp/test.TestAPI/Ping`. -/
theorem ping_url_pure_join (base : Url) :
    ping_url base = .ok ⟨base.scheme, base.host,
      base.path.dropLast ++ ["test.TestAPI", "Ping"]⟩ ∧
    (∀ u : Url, ping_url base = .ok u → "twirp" ∈ u.path → "twirp" ∈ base.path) ∧
    ping_url ⟨"http", "localhost", ["twirp", ""]⟩ =
      .ok ⟨"http", "localhost", ["twirp", "test.TestAPI", "Ping"]⟩ := by
  refine ⟨rfl, ?_, rfl⟩
  intro u hu hmem
  have hu2 : u = ⟨base.scheme, base.host,
      base.path.dropLast ++ ["test.TestAPI", "Ping"]⟩ := by
    cases hu
    rfl
  rw [hu2] at hmem
  rcases List.mem_append.mp hmem with h | h
  · exact List.dropLast_subset _ h
  · exact absurd h (by decide)

/-- C8 witness: the theorem applied at the base URL `/twirp/`, its inner
hypotheses discharged there. -/
theorem ping_url_pure_join_witness :
    "twirp" ∈ (⟨"http", "localhost", ["twirp", ""]⟩ : Url).path :=
  (ping_url_pure_join ⟨"http", "localhost", ["twirp", ""]⟩).2.1
    ⟨"http", "localhost", ["twirp", "test.TestAPI", "Ping"]⟩
    rfl (by decide)

/-- C9: dispatch is a pure function of the shared read-only routing table
and the request alone, so for every collection of in-flight requests to
`"test.TestAPI/Ping"` with pairwise-distinct payloads, every request
receives exactly the response echoing its own payload, and under any
completion order (any permutation of the collection) the multiset of
(request id, response) pairs is exactly the ids paired with their own
echoes — no cross-talk between concurrent dispatches. -/
theorem concurrent_dispatch_no_crosstalk (reqs : List (Nat × String))
    (_hdistinct : reqs.Pairwise (fun a b => a.2 ≠ b.2)) :
    (∀ p ∈ reqs, dispatch test_api_router "test.TestAPI/Ping" { name := p.2 } =
      .ok { name := p.2 }) ∧
    (∀ order : List (Nat × String), reqs.Perm order →
      (order.map (fun p =>
          (p.1, dispatch test_api_router "test.TestAPI/Ping" { name := p.2 }))).Perm
        (reqs.map (fun p =>
          (p.1, (Except.ok { name := p.2 } : Except TwirpErrorResponse PingResponse))))) := by
  constructor
  · intro p _
    rfl
  · intro order hperm
    have hfun : (fun p : Nat × String =>
          (p.1, dispatch test_api_router "test.TestAPI/Ping" { name := p.2 })) =
        (fun p : Nat × String =>
          (p.1, (Except.ok { name := p.2 } : Except TwirpErrorResponse PingResponse))) :=
      funext (fun p => rfl)
    rw [hfun]
    exact hperm.symm.map _

/-- C9 witness: two concurrent requests with distinct payloads, completed
in the opposite order, still pair each id with its own echo. -/
theorem concurrent_dispatch_no_crosstalk_witness :
    (([((2 : Nat), "b"), (1, "a")] : List (Nat × String)).map (fun p =>
        (p.1, dispatch test_api_router "test.TestAPI/Ping" { name := p.2 }))).Perm
      (([((1 : Nat), "a"), (2, "b")] : List (Nat × String)).map (fun p =>
        (p.1, (Except.ok { name := p.2 } : Except TwirpErrorResponse PingResponse)))) :=
  (concurrent_dispatch_no_crosstalk [(1, "a"), (2, "b")] (by decide)).2
    [(2, "b"), (1, "a")] (by decide)

/-- C10: structured decoding of `PingRequest` is lenient about absent
fields: deserializing any JSON object with no `"name"` member yields the
`#[serde(default)]` fallback `PingRequest { name: "" }`, and the concrete
body `"{}"` decodes successfully to that value. -/
theorem missing_name_field_defaults (kvs : List (String × Json))
    (h : ∀ kv ∈ kvs, kv.1 ≠ "name") :
    pingNameFromJson (Json.obj kvs) = some "" ∧
    read_json_body_ping (utf8Encode "\x7b\x7d") = some { name := "" } := by
  constructor
  · have hfil : kvs.filter (fun kv => kv.1 == "name") = [] := by
      rw [List.filter_eq_nil_iff]
      intro kv hm
      simpa using h kv hm
    rw [pingNameFromJson, hfil, pingNameFromMembers]
  · decide

/-- C10 witness: the theorem applied at the empty member list. -/
theorem missing_name_field_defaults_witness :
    pingNameFromJson (Json.obj []) = some "" :=
  (missing_name_field_defaults []
    (fun kv hm => absurd hm (List.not_mem_nil kv))).1

end Twirp
